import Mathlib

/-!
Verification of the Auth0 user-sync pipeline in `src/cio/src/auth_logins.rs`.

The development shallowly embeds the data model and operations of that file:

* Rust strings are modelled as `List Char` (`Str`), so that the string
  operations the source uses (`trim`, `ends_with`, `is_empty`, integer
  parsing) are structurally recursive and can be evaluated by the kernel.
  `str s` injects a Lean string literal into the model.
* `DateTime<Utc>` values are modelled as epoch-second integers.
* A panicking operation (`unwrap`, the unchecked `identities[0]` index) is
  modelled by an `Option`-returning function where `none` is the
  run-aborting panic.
* Network effects are modelled two ways: the two HTTP fetchers
  (`get_auth_users_page`, `get_auth_logs_for_user`) act on an explicit
  `HttpResponse` value describing what the wire returned, and the
  orchestrator (`get_auth_users`, `refresh_db_auth`) takes oracles
  `pages : Nat → List User` and `logsFor : Str → List NewAuthUserLogin`
  giving the (successful) result of each page / per-user-log fetch.
* Database writes (`db.upsert_auth_user_login`, `db.upsert_auth_user`) are
  modelled as an ordered trace of `SinkEvent`s.
* The `println!` diagnostics are modelled as structured `LogLine` values
  carrying exactly the data the source interpolates into the message.
-/

namespace AuthLogins

/-- Rust strings, modelled as their character sequences. -/
abbrev Str := List Char

/-- Inject a Lean string literal into the model. -/
def str (s : String) : Str := s.data

/-- `str::trim`: strip whitespace from both ends. -/
def strTrim (s : Str) : Str :=
  ((s.dropWhile Char.isWhitespace).reverse.dropWhile Char.isWhitespace).reverse

/-- `str::ends_with`. -/
def strEndsWith (s suffix : Str) : Bool :=
  suffix.isSuffixOf s

/-- Digit accumulator for `parseI64?`. -/
def parseNatAux : Str → Nat → Option Nat
  | [], acc => some acc
  | c :: rest, acc =>
    if c.isDigit then parseNatAux rest (acc * 10 + (c.toNat - 48)) else none

/-- A non-empty all-digit string parses to its decimal value. -/
def parseNat? (s : Str) : Option Nat :=
  match s with
  | [] => none
  | _ => parseNatAux s 0

/-- `str::parse::<i64>()`: optional sign followed by a non-empty digit
string (the i64 range cap is not modelled; no claim depends on it). -/
def parseI64? (s : Str) : Option Int :=
  match s with
  | '+' :: rest => (parseNat? rest).map Int.ofNat
  | '-' :: rest => (parseNat? rest).map (fun n => -(Int.ofNat n))
  | _ => (parseNat? s).map Int.ofNat

/-- Auth0 identity record (`struct Identity` in `auth_logins.rs`). -/
structure Identity where
  access_token : Str
  provider : Str
  user_id : Str
  connection : Str
  is_social : Bool
deriving Repr, DecidableEq

/-- Auth0 user record (`struct User` in `auth_logins.rs`).  `DateTime<Utc>`
fields are modelled as epoch-second integers. -/
structure User where
  user_id : Str
  email : Str
  email_verified : Bool
  username : Str
  family_name : Str
  given_name : Str
  name : Str
  nickname : Str
  picture : Str
  phone_number : Str
  phone_verified : Bool
  locale : Str
  identities : List Identity
  created_at : Int
  updated_at : Int
  last_login : Int
  last_ip : Str
  logins_count : Int
  blog : Str
  company : Str
deriving Repr, DecidableEq

/-- Normalized user record (`NewAuthUser` from `crate::models`).  The struct
definition lives in `models.rs`, which is not among the sources; its fields
are reconstructed from the record literal in `User::to_auth_user`: the three
`link_to_*` fields are link fields whose `Default::default()` is the empty
collection, modelled as `List Str` defaulting to `[]`, and
`last_application_accessed` is a string defaulting to `""`. -/
structure NewAuthUser where
  user_id : Str
  name : Str
  nickname : Str
  username : Str
  email : Str
  email_verified : Bool
  picture : Str
  company : Str
  blog : Str
  phone : Str
  phone_verified : Bool
  locale : Str
  login_provider : Str
  created_at : Int
  updated_at : Int
  last_login : Int
  last_ip : Str
  logins_count : Int
  link_to_people : List Str
  last_application_accessed : Str
  link_to_auth_user_logins : List Str
  link_to_page_views : List Str
deriving Repr, DecidableEq

/-- Login-event record (`NewAuthUserLogin` from `crate::models`).  The
struct definition lives in `models.rs`, which is not among the sources; only
the two fields `auth_logins.rs` touches (`email`, overwritten before the
upsert, and `client_name`, read for `last_application_accessed`) are
modelled. -/
structure NewAuthUserLogin where
  email : Str
  client_name : Str
deriving Repr, DecidableEq

/-- `User::to_auth_user`, parameterized by the two organizational domain
constants `GSUITE_DOMAIN` and `DOMAIN` that the source imports from
`crate::utils` (that file is not among the sources; every theorem below
holds for all values of the two constants).  The unchecked
`self.identities[0]` access panics on an empty identity list; the panic is
modelled as `none`. -/
def User.to_auth_user (gsuite_domain domain : Str) (u : User) : Option NewAuthUser :=
  let company : Str :=
    if strEndsWith u.email ('@' :: gsuite_domain) = true
        ∨ strEndsWith u.email ('@' :: domain) = true
        ∨ strTrim u.company = str "Oxide Computer Company" then
      str "@oxidecomputer"
    else if strEndsWith u.email (str "@bench.com") = true then
      str "@bench"
    else if strTrim u.company = str "Algolia" then
      str "@algolia"
    else if strTrim u.company = str "0xF9BA143B95FF6D82"
        ∨ strTrim u.company = [] ∨ strTrim u.company = str "TBD" then
      []
    else
      u.company
  match u.identities with
  | [] => none
  | id0 :: _ =>
    some {
      user_id := u.user_id
      name := u.name
      nickname := u.nickname
      username := u.username
      email := u.email
      email_verified := u.email_verified
      picture := u.picture
      company := strTrim company
      blog := u.blog
      phone := u.phone_number
      phone_verified := u.phone_verified
      locale := u.locale
      login_provider := id0.provider
      created_at := u.created_at
      updated_at := u.updated_at
      last_login := u.last_login
      last_ip := u.last_ip
      logins_count := u.logins_count
      link_to_people := []
      last_application_accessed := []
      link_to_auth_user_logins := []
      link_to_page_views := [] }

/-- The company-rewrite rules as the specification words them: priority
order — organizational domains / company match, then the `@bench.com`
domain, then `Algolia`, then empty/placeholder/garbage cleanup, else the
trimmed original value passes through.  Written from the spec, to be
compared against `User.to_auth_user`. -/
def companyRewriteSpec (gsuite_domain domain : Str) (email company : Str) : Str :=
  if strEndsWith email ('@' :: gsuite_domain) = true
      ∨ strEndsWith email ('@' :: domain) = true
      ∨ strTrim company = str "Oxide Computer Company" then
    str "@oxidecomputer"
  else if strEndsWith email (str "@bench.com") = true then
    str "@bench"
  else if strTrim company = str "Algolia" then
    str "@algolia"
  else if strTrim company = []
      ∨ strTrim company = str "TBD"
      ∨ strTrim company = str "0xF9BA143B95FF6D82" then
    []
  else
    strTrim company

/-- An HTTP response as the two fetchers observe it: status code, headers,
body text, and the outcome `json` of deserializing the body into the
expected shape (`none` models a `resp.json().unwrap()` panic). -/
structure HttpResponse (α : Type) where
  status : Nat
  headers : List (Str × Str)
  text : Str
  json : Option α

/-- `resp.headers().get(name)`. -/
def headerGet : List (Str × Str) → Str → Option Str
  | [], _ => none
  | (k, v) :: rest, name => if k = name then some v else headerGet rest name

/-- One `println!` diagnostic, carrying the data the source interpolates. -/
inductive LogLine
  | rateLimited (limit remaining : Str) (durSeconds : Int)
  | logsFetchFailed (status : Nat) (body : Str)
  | usersFetchFailed (status : Nat) (body : Str)
deriving Repr, DecidableEq

/-- The duration-until-reset computation on the 429 path of
`get_auth_logs_for_user`: `ts - Utc::now()`, sign-flipped when positive. -/
def rateLimitDur (resetInt now : Int) : Int :=
  let dur := resetInt - now
  if dur > 0 then -dur else dur

/-- `get_auth_logs_for_user`, as a function of the observed HTTP response
(`now` is the current epoch second used by the 429 diagnostic).  Returns the
fetched log list together with the diagnostics printed; `none` models a
panicking `unwrap` (missing rate-limit header, unparseable reset value, or
JSON deserialization failure). -/
def get_auth_logs_for_user (now : Int) (resp : HttpResponse (List NewAuthUserLogin)) :
    Option (List NewAuthUserLogin × List LogLine) :=
  if resp.status = 200 then
    match resp.json with
    | some logs => some (logs, [])
    | none => none
  else if resp.status = 429 then
    match headerGet resp.headers (str "x-ratelimit-limit") with
    | none => none
    | some limit =>
      match headerGet resp.headers (str "x-ratelimit-remaining") with
      | none => none
      | some remaining =>
        match headerGet resp.headers (str "x-ratelimit-reset") with
        | none => none
        | some reset =>
          match parseI64? reset with
          | none => none
          | some resetInt =>
            some ([], [LogLine.rateLimited limit remaining (rateLimitDur resetInt now)])
  else
    some ([], [LogLine.logsFetchFailed resp.status resp.text])

/-- `get_auth_users_page`, as a function of the observed HTTP response.
Returns the fetched user list together with the diagnostics printed; `none`
models a panicking `unwrap` (JSON deserialization failure on a 200). -/
def get_auth_users_page (resp : HttpResponse (List User)) :
    Option (List User × List LogLine) :=
  if resp.status = 200 then
    match resp.json with
    | some users => some (users, [])
    | none => none
  else
    some ([], [LogLine.usersFetchFailed resp.status resp.text])

/-- The pagination `while has_records` loop of `get_auth_users`, with the
per-page results given by the oracle `pages` (each page fetch assumed
successful).  `i`/`acc` are the loop variables; `reqs` records the page
indices requested, in order.  The source loop is unbounded, so it is
embedded with a `fuel` bound; the theorems below assume an empty page
exists, in which case the result is independent of any sufficient fuel. -/
def usersLoop (pages : Nat → List User) : Nat → Nat → List User → List Nat →
    List User × List Nat
  | 0, _, acc, reqs => (acc, reqs)
  | fuel + 1, i, acc, reqs =>
    let u := pages i
    if u.isEmpty then (acc ++ u, reqs ++ [i])
    else usersLoop pages fuel (i + 1) (acc ++ u) (reqs ++ [i])

/-- Concatenation of pages `i, i+1, …, i+k-1`, in order. -/
def pagesConcat (pages : Nat → List User) : Nat → Nat → List User
  | _, 0 => []
  | i, k + 1 => pages i ++ pagesConcat pages (i + 1) k

/-- One database write issued by the pipeline, in trace order. -/
inductive SinkEvent
  | upsertAuthUserLogin (login : NewAuthUserLogin)
  | upsertAuthUser (user : NewAuthUser)
deriving Repr, DecidableEq

/-- The per-user body of the `for user in users` loop of `get_auth_users`:
normalize the user, overwrite `last_application_accessed` from the first
log entry when the log list is non-empty, and upsert every log entry with
the user's email stamped in.  Returns the normalized user (as pushed onto
`auth_users`) and the sink events issued for this user, in order; `none`
models the `identities[0]` panic. -/
def processUser (gsuite_domain domain : Str) (logsFor : Str → List NewAuthUserLogin)
    (u : User) : Option (NewAuthUser × List SinkEvent) :=
  match User.to_auth_user gsuite_domain domain u with
  | none => none
  | some auth_user =>
    let auth_user_logins := logsFor u.user_id
    let auth_user :=
      match auth_user_logins with
      | [] => auth_user
      | first_result :: _ =>
        { auth_user with last_application_accessed := first_result.client_name }
    some (auth_user,
      auth_user_logins.map
        (fun l => SinkEvent.upsertAuthUserLogin { l with email := u.email }))

/-- The `for user in users` loop of `get_auth_users`, over the collected
user list: accumulates the `auth_users` result list and the ordered trace
of sink events. -/
def processUsers (gsuite_domain domain : Str) (logsFor : Str → List NewAuthUserLogin) :
    List User → Option (List NewAuthUser × List SinkEvent)
  | [] => some ([], [])
  | u :: rest =>
    match processUser gsuite_domain domain logsFor u with
    | none => none
    | some (au, evs) =>
      match processUsers gsuite_domain domain logsFor rest with
      | none => none
      | some (aus, evs2) => some (au :: aus, evs ++ evs2)

/-- `get_auth_users` (after the token exchange, which the oracles already
incorporate): collect all pages, then process each user.  Returns the
`auth_users` list handed back to the caller and the trace of sink events
issued during the loop. -/
def get_auth_users (gsuite_domain domain : Str) (pages : Nat → List User)
    (logsFor : Str → List NewAuthUserLogin) (fuel : Nat) :
    Option (List NewAuthUser × List SinkEvent) :=
  processUsers gsuite_domain domain logsFor (usersLoop pages fuel 0 [] []).1

/-- `refresh_db_auth`: run `get_auth_users`, then upsert every returned
auth user.  The result is the complete ordered trace of sink events. -/
def refresh_db_auth (gsuite_domain domain : Str) (pages : Nat → List User)
    (logsFor : Str → List NewAuthUserLogin) (fuel : Nat) : Option (List SinkEvent) :=
  match get_auth_users gsuite_domain domain pages logsFor fuel with
  | none => none
  | some (auth_users, evs) =>
    some (evs ++ auth_users.map SinkEvent.upsertAuthUser)

/-- How many of the three link-like fields of a normalized record are at
their default/empty value. -/
def linkFieldsAtDefault (au : NewAuthUser) : Nat :=
  (if au.link_to_people = [] then 1 else 0) +
  (if au.link_to_auth_user_logins = [] then 1 else 0) +
  (if au.link_to_page_views = [] then 1 else 0)

/-- The ordering property claimed of the trace: each user's record is handed
off to the sink before any of that user's login events (a login event is
tied to its user through the stamped email). -/
def userUpsertPrecedesItsLogins (tr : List SinkEvent) : Prop :=
  ∀ (i j : Nat) (au : NewAuthUser) (l : NewAuthUserLogin),
    tr[i]? = some (SinkEvent.upsertAuthUser au) →
    tr[j]? = some (SinkEvent.upsertAuthUserLogin l) → l.email = au.email → i < j

/-! Concrete data used by the witnesses and counterexamples. -/

/-- A sample value for the `GSUITE_DOMAIN` parameter. -/
def gdW : Str := str "oxidecomputer.com"

/-- A sample value for the `DOMAIN` parameter. -/
def domW : Str := str "oxide.computer"

/-- A sample identity. -/
def identW : Identity :=
  { access_token := [], provider := str "google-oauth2", user_id := str "g123",
    connection := str "google", is_social := true }

/-- A sample user whose company field is the placeholder `TBD` and whose
email matches no rewrite rule. -/
def userTBD : User :=
  { user_id := str "auth0|1", email := str "x@example.com", email_verified := true,
    username := [], family_name := [], given_name := [], name := str "X",
    nickname := str "x", picture := [], phone_number := [], phone_verified := false,
    locale := [], identities := [identW], created_at := 10, updated_at := 20,
    last_login := 30, last_ip := str "1.2.3.4", logins_count := 3, blog := [],
    company := str "TBD" }

/-- The normalized record `User.to_auth_user` produces for `userTBD`. -/
def authTBD : NewAuthUser :=
  { user_id := str "auth0|1", name := str "X", nickname := str "x", username := [],
    email := str "x@example.com", email_verified := true, picture := [],
    company := [], blog := [], phone := [], phone_verified := false, locale := [],
    login_provider := str "google-oauth2", created_at := 10, updated_at := 20,
    last_login := 30, last_ip := str "1.2.3.4", logins_count := 3,
    link_to_people := [], last_application_accessed := [],
    link_to_auth_user_logins := [], link_to_page_views := [] }

/-- `userTBD` with an empty identity list. -/
def userNoIdentities : User := { userTBD with identities := [] }

/-- A page oracle: one page of 20 users, then an empty page. -/
def pagesW : Nat → List User := fun n => if n = 0 then List.replicate 20 userTBD else []

/-- A page oracle: one page with a single user, then an empty page. -/
def pagesC3 : Nat → List User := fun n => if n = 0 then [userTBD] else []

/-- A log entry whose client name is `Console` (its email field still holds
whatever the remote returned). -/
def loginConsole : NewAuthUserLogin :=
  { email := str "stale@example.com", client_name := str "Console" }

/-- A log oracle: every user has exactly the one `Console` log entry. -/
def logsC3 : Str → List NewAuthUserLogin := fun _ => [loginConsole]

/-- `authTBD` after `last_application_accessed` is filled from the log. -/
def authTBDConsole : NewAuthUser :=
  { authTBD with last_application_accessed := str "Console" }

/-- `loginConsole` with the user's email stamped in. -/
def stampedConsole : NewAuthUserLogin :=
  { email := str "x@example.com", client_name := str "Console" }

/-- The sink trace `refresh_db_auth` produces for `pagesC3` and `logsC3`:
the login-event upsert comes first, the user upsert second. -/
def traceC3 : List SinkEvent :=
  [SinkEvent.upsertAuthUserLogin stampedConsole,
   SinkEvent.upsertAuthUser authTBDConsole]

/-- A 429 response carrying all three rate-limit headers. -/
def respRateLimited : HttpResponse (List NewAuthUserLogin) :=
  { status := 429,
    headers := [(str "x-ratelimit-limit", str "10"),
                (str "x-ratelimit-remaining", str "0"),
                (str "x-ratelimit-reset", str "1000")],
    text := str "rate limited",
    json := none }

/-- A 429 response with no rate-limit headers at all. -/
def respMissing429 : HttpResponse (List NewAuthUserLogin) :=
  { status := 429, headers := [], text := str "rate limited", json := none }

/-- A 500 response to a user-page fetch. -/
def respU500 : HttpResponse (List User) :=
  { status := 500, headers := [], text := str "server error", json := none }

/-- A 503 response to a per-user log fetch. -/
def respL503 : HttpResponse (List NewAuthUserLogin) :=
  { status := 503, headers := [], text := str "unavailable", json := none }

/-! Helper lemmas shared by the claim theorems. -/

/-- Unrolling of the pagination loop: starting at page `i` with the `k`-th
page from there empty and all earlier ones non-empty, the loop appends the
concatenation of the `k` non-empty pages and requests pages `i, …, i+k`. -/
theorem usersLoop_spec (pages : Nat → List User) :
    ∀ (k fuel i : Nat) (acc : List User) (reqs : List Nat),
      k + 1 ≤ fuel → pages (i + k) = [] → (∀ j, j < k → pages (i + j) ≠ []) →
      usersLoop pages fuel i acc reqs =
        (acc ++ pagesConcat pages i k, reqs ++ List.range' i (k + 1)) := by
  intro k
  induction k with
  | zero =>
    intro fuel i acc reqs hfuel hempty _
    match fuel, hfuel with
    | f + 1, _ =>
      simp only [Nat.add_zero] at hempty
      simp [usersLoop, hempty, pagesConcat]
  | succ k ih =>
    intro fuel i acc reqs hfuel hempty hne
    match fuel, hfuel with
    | f + 1, hf =>
      have hne0 : pages i ≠ [] := by
        have h0 := hne 0 (Nat.succ_pos k)
        simpa using h0
      have hie : (pages i).isEmpty = false := by
        simp [List.isEmpty_iff, hne0]
      have harith : i + 1 + k = i + (k + 1) := by omega
      have hstep := ih f (i + 1) (acc ++ pages i) (reqs ++ [i])
        (by omega)
        (by rw [harith]; exact hempty)
        (by
          intro j hj
          have harith2 : i + 1 + j = i + (j + 1) := by omega
          rw [harith2]
          exact hne (j + 1) (by omega))
      simp only [usersLoop, hie]
      simp only [Bool.false_eq_true, if_false]
      rw [hstep]
      simp [pagesConcat, List.range'_succ, List.append_assoc]

/-- The length of a page concatenation is the sum of the page sizes. -/
theorem pagesConcat_length (pages : Nat → List User) :
    ∀ (k i : Nat), (pagesConcat pages i k).length =
      ((List.range k).map (fun j => (pages (i + j)).length)).sum := by
  intro k
  induction k with
  | zero => intro i; simp [pagesConcat]
  | succ k ih =>
    intro i
    simp only [pagesConcat, List.length_append, ih (i + 1),
      List.range_succ_eq_map, List.map_cons, List.map_map, List.sum_cons,
      Nat.add_zero]
    have hmap : List.map (fun j => (pages (i + 1 + j)).length) (List.range k) =
        List.map ((fun j => (pages (i + j)).length) ∘ Nat.succ) (List.range k) := by
      refine List.map_congr_left ?_
      intro a _
      have harith : i + 1 + a = i + (a + 1) := by omega
      simp [Function.comp, harith]
    rw [hmap]

/-- Every sink event issued while processing a single user is a login-event
upsert (the normalized user is returned, not upserted here). -/
theorem processUser_events_are_logins (gd dom : Str)
    (logsFor : Str → List NewAuthUserLogin) (u : User) (au : NewAuthUser)
    (evs : List SinkEvent) (h : processUser gd dom logsFor u = some (au, evs)) :
    ∀ e ∈ evs, ∀ au2, e ≠ SinkEvent.upsertAuthUser au2 := by
  unfold processUser at h
  cases hta : User.to_auth_user gd dom u with
  | none => rw [hta] at h; simp at h
  | some au0 =>
    rw [hta] at h
    simp only [Option.some.injEq, Prod.mk.injEq] at h
    obtain ⟨-, h2⟩ := h
    subst h2
    intro e he au2
    rcases List.mem_map.mp he with ⟨l, -, hl⟩
    subst hl
    simp

/-- No sink event issued during `get_auth_users`'s per-user loop is a
normalized-user upsert. -/
theorem processUsers_no_user_upserts (gd dom : Str)
    (logsFor : Str → List NewAuthUserLogin) :
    ∀ (us : List User) (aus : List NewAuthUser) (evs : List SinkEvent),
      processUsers gd dom logsFor us = some (aus, evs) →
      ∀ e ∈ evs, ∀ au, e ≠ SinkEvent.upsertAuthUser au := by
  intro us
  induction us with
  | nil =>
    intro aus evs h
    simp only [processUsers, Option.some.injEq, Prod.mk.injEq] at h
    obtain ⟨-, h2⟩ := h
    subst h2
    intro e he
    simp at he
  | cons u rest ih =>
    intro aus evs h
    simp only [processUsers] at h
    cases hpu : processUser gd dom logsFor u with
    | none => rw [hpu] at h; simp at h
    | some pr =>
      rw [hpu] at h
      obtain ⟨au1, evs1⟩ := pr
      cases hps : processUsers gd dom logsFor rest with
      | none => rw [hps] at h; simp at h
      | some pr2 =>
        rw [hps] at h
        obtain ⟨aus2, evs2⟩ := pr2
        simp only [Option.some.injEq, Prod.mk.injEq] at h
        obtain ⟨-, h2⟩ := h
        subst h2
        intro e he au
        rcases List.mem_append.mp he with h3 | h3
        · exact processUser_events_are_logins gd dom logsFor u au1 evs1 hpu e h3 au
        · exact ih aus2 evs2 hps e h3 au

/-- `User.to_auth_user` leaves `last_application_accessed` at its default. -/
theorem to_auth_user_last_app_default (gd dom : Str) (u : User) (au : NewAuthUser)
    (h : User.to_auth_user gd dom u = some au) :
    au.last_application_accessed = [] := by
  unfold User.to_auth_user at h
  cases hid : u.identities with
  | nil => rw [hid] at h; simp at h
  | cons id0 rest =>
    rw [hid] at h
    simp only [Option.some.injEq] at h
    subst h
    rfl

/-! The claims. -/

/-- C1: for every input `User` that normalizes, the normalizer's
company-rewrite rules are applied in priority order — organizational
domains/company first, then `@bench.com`, then `Algolia`, then the
empty/`TBD`/garbage cleanup to the empty string, else the trimmed original
value passes through — i.e. the produced company equals the spec-side
`companyRewriteSpec`. -/
theorem to_auth_user_company_rewrite (gd dom : Str) (u : User) (au : NewAuthUser)
    (h : User.to_auth_user gd dom u = some au) :
    au.company = companyRewriteSpec gd dom u.email u.company := by
  unfold User.to_auth_user at h
  cases hid : u.identities with
  | nil => rw [hid] at h; simp at h
  | cons id0 rest =>
    rw [hid] at h
    simp only [Option.some.injEq] at h
    subst h
    unfold companyRewriteSpec
    dsimp only
    split_ifs <;> first | rfl | decide | tauto

/-- C1 witness: a user with company `TBD` (and a non-matching email)
normalizes, follows the rewrite rules, and ends with the empty company. -/
theorem to_auth_user_company_rewrite_witness :
    User.to_auth_user gdW domW userTBD = some authTBD ∧
    authTBD.company = companyRewriteSpec gdW domW userTBD.email userTBD.company ∧
    authTBD.company = [] :=
  ⟨by decide, to_auth_user_company_rewrite gdW domW userTBD authTBD (by decide), by decide⟩

/-- C2: assuming each page fetch succeeds and page `k` is the first empty
page, the pagination loop requests pages `0, 1, …, k` contiguously, stops
right after the empty page, collects the concatenation of the non-empty
pages in order, and the total users fetched equal the sum of the page
sizes. -/
theorem get_auth_users_pagination (pages : Nat → List User) (k fuel : Nat)
    (hfuel : k + 1 ≤ fuel) (hempty : pages k = [])
    (hne : ∀ j, j < k → pages j ≠ []) :
    usersLoop pages fuel 0 [] [] = (pagesConcat pages 0 k, List.range (k + 1)) ∧
    (pagesConcat pages 0 k).length =
      ((List.range k).map (fun j => (pages j).length)).sum := by
  constructor
  · have h := usersLoop_spec pages k fuel 0 [] [] hfuel (by simpa using hempty)
      (by intro j hj; simpa using hne j hj)
    simpa [List.range_eq_range'] using h
  · have h := pagesConcat_length pages k 0
    simpa using h

/-- C2 witness: one page of 20 users followed by an empty page — exactly 2
page requests, 20 users fetched. -/
theorem get_auth_users_pagination_witness :
    (pagesW 1 = [] ∧ pagesW 0 ≠ []) ∧
    usersLoop pagesW 2 0 [] [] = (pagesConcat pagesW 0 1, List.range 2) ∧
    (pagesConcat pagesW 0 1).length =
      ((List.range 1).map (fun j => (pagesW j).length)).sum ∧
    (pagesConcat pagesW 0 1).length = 20 := by
  have h := get_auth_users_pagination pagesW 1 2 (by decide) (by decide)
    (by
      intro j hj
      have hj0 : j = 0 := by omega
      subst hj0
      decide)
  exact ⟨⟨by decide, by decide⟩, h.1, h.2, by decide⟩

/-- C3 counterexample: on a run with one user and one login event, the
complete trace upserts the login event first and the user record second, so
the claimed ordering (user record handed off before its login events) is
false. -/
theorem refresh_user_upsert_order_counterexample :
    refresh_db_auth gdW domW pagesC3 logsC3 2 = some traceC3 ∧
    ¬ userUpsertPrecedesItsLogins traceC3 := by
  constructor
  · decide
  · intro hcl
    have h10 := hcl 1 0 authTBDConsole stampedConsole rfl rfl (by decide)
    omega

/-- C3 amended: the order is the reverse of the claimed one — in the
complete `refresh_db_auth` trace, every login-event upsert (in particular
each user's own) comes before every normalized-user upsert, because login
events are upserted inside `get_auth_users`'s loop while user records are
only upserted after it returns. -/
theorem refresh_logins_before_user_upserts (gd dom : Str) (pages : Nat → List User)
    (logsFor : Str → List NewAuthUserLogin) (fuel : Nat) (tr : List SinkEvent)
    (h : refresh_db_auth gd dom pages logsFor fuel = some tr) :
    ∀ (i j : Nat) (au : NewAuthUser) (l : NewAuthUserLogin),
      tr[i]? = some (SinkEvent.upsertAuthUser au) →
      tr[j]? = some (SinkEvent.upsertAuthUserLogin l) → j < i := by
  unfold refresh_db_auth at h
  cases hg : get_auth_users gd dom pages logsFor fuel with
  | none => rw [hg] at h; simp at h
  | some pr =>
    rw [hg] at h
    obtain ⟨aus, evs⟩ := pr
    simp only [Option.some.injEq] at h
    subst h
    unfold get_auth_users at hg
    have hnou : ∀ e ∈ evs, ∀ au2, e ≠ SinkEvent.upsertAuthUser au2 :=
      processUsers_no_user_upserts gd dom logsFor _ aus evs hg
    intro i j au l hi hj
    have hilen : evs.length ≤ i := by
      by_contra hlt
      push_neg at hlt
      rw [List.getElem?_append, if_pos hlt] at hi
      exact hnou _ (List.getElem?_mem hi) au rfl
    have hjlen : j < evs.length := by
      by_contra hge
      push_neg at hge
      rw [List.getElem?_append_right hge] at hj
      have hmem := List.getElem?_mem hj
      rcases List.mem_map.mp hmem with ⟨u2, -, hequ⟩
      simp at hequ
    omega

/-- C3 witness: the amended ordering on the concrete one-user trace. -/
theorem refresh_logins_before_user_upserts_witness :
    refresh_db_auth gdW domW pagesC3 logsC3 2 = some traceC3 ∧
    (∀ (i j : Nat) (au : NewAuthUser) (l : NewAuthUserLogin),
      traceC3[i]? = some (SinkEvent.upsertAuthUser au) →
      traceC3[j]? = some (SinkEvent.upsertAuthUserLogin l) → j < i) :=
  ⟨by decide, refresh_logins_before_user_upserts gdW domW pagesC3 logsC3 2 traceC3 (by decide)⟩

/-- C4: a user with a non-empty identity list normalizes and the output's
`login_provider` is the provider of the first identity; a user with an
empty identity list makes normalization abort (the unchecked `identities[0]`
access, modelled as `none`) rather than produce a record. -/
theorem to_auth_user_login_provider (gd dom : Str) (u : User) :
    (∀ (id0 : Identity) (rest : List Identity), u.identities = id0 :: rest →
      ∃ au, User.to_auth_user gd dom u = some au ∧ au.login_provider = id0.provider) ∧
    (u.identities = [] → User.to_auth_user gd dom u = none) := by
  constructor
  · intro id0 rest hid
    unfold User.to_auth_user
    rw [hid]
    exact ⟨_, rfl, rfl⟩
  · intro hid
    unfold User.to_auth_user
    rw [hid]

/-- C4 witness: both branches at concrete users. -/
theorem to_auth_user_login_provider_witness :
    (userTBD.identities = [identW] ∧
      ∃ au, User.to_auth_user gdW domW userTBD = some au ∧
        au.login_provider = identW.provider) ∧
    (userNoIdentities.identities = [] ∧
      User.to_auth_user gdW domW userNoIdentities = none) :=
  ⟨⟨rfl, (to_auth_user_login_provider gdW domW userTBD).1 identW [] rfl⟩,
   ⟨rfl, (to_auth_user_login_provider gdW domW userNoIdentities).2 rfl⟩⟩

/-- C5: a log fetch receiving a 429 response carrying the three
`x-ratelimit-*` headers (with an integer reset) emits one rate-limit
diagnostic built from the parsed headers and returns the empty list — no
crash, no retry. -/
theorem logs_fetch_rate_limited (now : Int)
    (resp : HttpResponse (List NewAuthUserLogin))
    (limit remaining reset : Str) (resetInt : Int)
    (h429 : resp.status = 429)
    (hl : headerGet resp.headers (str "x-ratelimit-limit") = some limit)
    (hr : headerGet resp.headers (str "x-ratelimit-remaining") = some remaining)
    (hs : headerGet resp.headers (str "x-ratelimit-reset") = some reset)
    (hp : parseI64? reset = some resetInt) :
    get_auth_logs_for_user now resp =
      some ([], [LogLine.rateLimited limit remaining (rateLimitDur resetInt now)]) := by
  unfold get_auth_logs_for_user
  rw [h429]
  simp [hl, hr, hs, hp]

/-- C5 witness: a concrete well-formed 429 response. -/
theorem logs_fetch_rate_limited_witness :
    (respRateLimited.status = 429 ∧
      headerGet respRateLimited.headers (str "x-ratelimit-limit") = some (str "10") ∧
      headerGet respRateLimited.headers (str "x-ratelimit-remaining") = some (str "0") ∧
      headerGet respRateLimited.headers (str "x-ratelimit-reset") = some (str "1000") ∧
      parseI64? (str "1000") = some 1000) ∧
    get_auth_logs_for_user 600 respRateLimited =
      some ([], [LogLine.rateLimited (str "10") (str "0") (rateLimitDur 1000 600)]) :=
  ⟨⟨rfl, by decide, by decide, by decide, by decide⟩,
   logs_fetch_rate_limited 600 respRateLimited (str "10") (str "0") (str "1000") 1000
     rfl (by decide) (by decide) (by decide) (by decide)⟩

/-- C6: on a non-success status other than 429, the user-page fetch logs the
status and body and returns the empty list, the per-user log fetch does the
same, and the pagination loop treats an empty page result exactly as
end-of-pagination (it stops); neither fetch aborts. -/
theorem fetch_non_success_returns_empty (now : Int)
    (respU : HttpResponse (List User)) (respL : HttpResponse (List NewAuthUserLogin))
    (hU : ¬ (200 ≤ respU.status ∧ respU.status ≤ 299))
    (hL : ¬ (200 ≤ respL.status ∧ respL.status ≤ 299))
    (hL429 : respL.status ≠ 429) :
    get_auth_users_page respU =
      some ([], [LogLine.usersFetchFailed respU.status respU.text]) ∧
    get_auth_logs_for_user now respL =
      some ([], [LogLine.logsFetchFailed respL.status respL.text]) ∧
    (∀ (pages : Nat → List User) (fuel i : Nat) (acc : List User) (reqs : List Nat),
      pages i = [] → usersLoop pages (fuel + 1) i acc reqs = (acc, reqs ++ [i])) := by
  have hU200 : respU.status ≠ 200 := by intro h; exact hU (by omega)
  have hL200 : respL.status ≠ 200 := by intro h; exact hL (by omega)
  refine ⟨?_, ?_, ?_⟩
  · unfold get_auth_users_page
    rw [if_neg hU200]
  · unfold get_auth_logs_for_user
    rw [if_neg hL200, if_neg hL429]
  · intro pages fuel i acc reqs hpi
    simp [usersLoop, hpi]

/-- C6 witness: concrete 500 (user page) and 503 (logs) responses. -/
theorem fetch_non_success_returns_empty_witness :
    (¬ (200 ≤ respU500.status ∧ respU500.status ≤ 299) ∧
      ¬ (200 ≤ respL503.status ∧ respL503.status ≤ 299) ∧ respL503.status ≠ 429) ∧
    (get_auth_users_page respU500 =
      some ([], [LogLine.usersFetchFailed 500 (str "server error")]) ∧
    get_auth_logs_for_user 0 respL503 =
      some ([], [LogLine.logsFetchFailed 503 (str "unavailable")]) ∧
    (∀ (pages : Nat → List User) (fuel i : Nat) (acc : List User) (reqs : List Nat),
      pages i = [] → usersLoop pages (fuel + 1) i acc reqs = (acc, reqs ++ [i]))) :=
  ⟨⟨by decide, by decide, by decide⟩,
   fetch_non_success_returns_empty 0 respU500 respL503 (by decide) (by decide) (by decide)⟩

/-- C7: if the fetched log list for a user is non-empty, the normalized
record's `last_application_accessed` is the client name of the first (most
recent) entry; if it is empty, the field keeps its default empty value. -/
theorem processUser_last_application (gd dom : Str)
    (logsFor : Str → List NewAuthUserLogin) (u : User) (au : NewAuthUser)
    (evs : List SinkEvent) (h : processUser gd dom logsFor u = some (au, evs)) :
    (∀ (l : NewAuthUserLogin) (rest : List NewAuthUserLogin),
      logsFor u.user_id = l :: rest → au.last_application_accessed = l.client_name) ∧
    (logsFor u.user_id = [] → au.last_application_accessed = []) := by
  unfold processUser at h
  cases hta : User.to_auth_user gd dom u with
  | none => rw [hta] at h; simp at h
  | some au0 =>
    rw [hta] at h
    constructor
    · intro l rest hlog
      rw [hlog] at h
      simp only [Option.some.injEq, Prod.mk.injEq] at h
      obtain ⟨h1, -⟩ := h
      subst h1
      rfl
    · intro hlog
      rw [hlog] at h
      simp only [Option.some.injEq, Prod.mk.injEq] at h
      obtain ⟨h1, -⟩ := h
      subst h1
      exact to_auth_user_last_app_default gd dom u au0 hta

/-- C7 witness: a user with one log entry whose client name is `Console`
gets `last_application_accessed = "Console"`. -/
theorem processUser_last_application_witness :
    (logsC3 userTBD.user_id = loginConsole :: [] ∧
      processUser gdW domW logsC3 userTBD =
        some (authTBDConsole, [SinkEvent.upsertAuthUserLogin stampedConsole])) ∧
    authTBDConsole.last_application_accessed = loginConsole.client_name :=
  ⟨⟨rfl, by decide⟩,
   (processUser_last_application gdW domW logsC3 userTBD authTBDConsole
     [SinkEvent.upsertAuthUserLogin stampedConsole] (by decide)).1 loginConsole [] rfl⟩

/-- C8: every login-event record handed off to the sink carries the email
of the user whose logs were fetched, set before the upsert call. -/
theorem processUser_login_email_stamped (gd dom : Str)
    (logsFor : Str → List NewAuthUserLogin) (u : User) (au : NewAuthUser)
    (evs : List SinkEvent) (h : processUser gd dom logsFor u = some (au, evs)) :
    ∀ l : NewAuthUserLogin, SinkEvent.upsertAuthUserLogin l ∈ evs → l.email = u.email := by
  unfold processUser at h
  cases hta : User.to_auth_user gd dom u with
  | none => rw [hta] at h; simp at h
  | some au0 =>
    rw [hta] at h
    simp only [Option.some.injEq, Prod.mk.injEq] at h
    obtain ⟨-, h2⟩ := h
    subst h2
    intro l hl
    rcases List.mem_map.mp hl with ⟨l0, -, hel⟩
    injection hel with h3
    subst h3
    rfl

/-- C8 witness: the concrete stamped login event carries the user's email
(the remote's stale email is overwritten). -/
theorem processUser_login_email_stamped_witness :
    processUser gdW domW logsC3 userTBD =
      some (authTBDConsole, [SinkEvent.upsertAuthUserLogin stampedConsole]) ∧
    stampedConsole.email = userTBD.email :=
  ⟨by decide,
   processUser_login_email_stamped gdW domW logsC3 userTBD authTBDConsole
     [SinkEvent.upsertAuthUserLogin stampedConsole] (by decide) stampedConsole
     (by simp)⟩

/-- C9 counterexample: the claim says exactly two link-like fields are left
at their default, but the normalizer leaves all three (`link_to_people`,
`link_to_auth_user_logins`, `link_to_page_views`) at their default. -/
theorem to_auth_user_link_fields_counterexample :
    User.to_auth_user gdW domW userTBD = some authTBD ∧
    linkFieldsAtDefault authTBD = 3 ∧ linkFieldsAtDefault authTBD ≠ 2 := by
  refine ⟨by decide, by decide, by decide⟩

/-- C9 amended: all normalized-record fields other than `company` and
`login_provider` pass through unchanged from the input, and exactly three
link-like fields (plus `last_application_accessed`) are left at their
default/empty values pending later enrichment. -/
theorem to_auth_user_frame (gd dom : Str) (u : User) (au : NewAuthUser)
    (h : User.to_auth_user gd dom u = some au) :
    au.user_id = u.user_id ∧ au.name = u.name ∧ au.nickname = u.nickname ∧
    au.username = u.username ∧ au.email = u.email ∧
    au.email_verified = u.email_verified ∧ au.picture = u.picture ∧
    au.blog = u.blog ∧ au.phone = u.phone_number ∧
    au.phone_verified = u.phone_verified ∧ au.locale = u.locale ∧
    au.created_at = u.created_at ∧ au.updated_at = u.updated_at ∧
    au.last_login = u.last_login ∧ au.last_ip = u.last_ip ∧
    au.logins_count = u.logins_count ∧ au.link_to_people = [] ∧
    au.link_to_auth_user_logins = [] ∧ au.link_to_page_views = [] ∧
    au.last_application_accessed = [] := by
  unfold User.to_auth_user at h
  cases hid : u.identities with
  | nil => rw [hid] at h; simp at h
  | cons id0 rest =>
    rw [hid] at h
    simp only [Option.some.injEq] at h
    subst h
    exact ⟨rfl, rfl, rfl, rfl, rfl, rfl, rfl, rfl, rfl, rfl,
      rfl, rfl, rfl, rfl, rfl, rfl, rfl, rfl, rfl, rfl⟩

/-- C9 witness: the frame condition at a concrete user. -/
theorem to_auth_user_frame_witness :
    User.to_auth_user gdW domW userTBD = some authTBD ∧
    (authTBD.user_id = userTBD.user_id ∧ authTBD.name = userTBD.name ∧
    authTBD.nickname = userTBD.nickname ∧ authTBD.username = userTBD.username ∧
    authTBD.email = userTBD.email ∧
    authTBD.email_verified = userTBD.email_verified ∧
    authTBD.picture = userTBD.picture ∧ authTBD.blog = userTBD.blog ∧
    authTBD.phone = userTBD.phone_number ∧
    authTBD.phone_verified = userTBD.phone_verified ∧
    authTBD.locale = userTBD.locale ∧ authTBD.created_at = userTBD.created_at ∧
    authTBD.updated_at = userTBD.updated_at ∧
    authTBD.last_login = userTBD.last_login ∧
    authTBD.last_ip = userTBD.last_ip ∧
    authTBD.logins_count = userTBD.logins_count ∧
    authTBD.link_to_people = [] ∧ authTBD.link_to_auth_user_logins = [] ∧
    authTBD.link_to_page_views = [] ∧
    authTBD.last_application_accessed = []) :=
  ⟨by decide, to_auth_user_frame gdW domW userTBD authTBD (by decide)⟩

/-- C10: the skip-on-429 behavior happens exactly when the 429 response
carries all three `x-ratelimit-*` headers with an integer-parseable reset;
a 429 response missing any of them, or with an unparseable reset, aborts
the run (`none`) instead of returning an empty list. -/
theorem logs_fetch_429_requires_headers (now : Int)
    (resp : HttpResponse (List NewAuthUserLogin)) (h : resp.status = 429) :
    (get_auth_logs_for_user now resp).isSome = true ↔
      (∃ limit, headerGet resp.headers (str "x-ratelimit-limit") = some limit) ∧
      (∃ remaining, headerGet resp.headers (str "x-ratelimit-remaining") = some remaining) ∧
      (∃ reset resetInt, headerGet resp.headers (str "x-ratelimit-reset") = some reset ∧
        parseI64? reset = some resetInt) := by
  unfold get_auth_logs_for_user
  rw [h]
  norm_num
  cases hl : headerGet resp.headers (str "x-ratelimit-limit") with
  | none => simp [hl]
  | some limit =>
    cases hr : headerGet resp.headers (str "x-ratelimit-remaining") with
    | none => simp [hl, hr]
    | some remaining =>
      cases hs : headerGet resp.headers (str "x-ratelimit-reset") with
      | none => simp [hl, hr, hs]
      | some reset =>
        cases hp : parseI64? reset with
        | none => simp [hl, hr, hs, hp]
        | some n => simp [hl, hr, hs, hp]

/-- C10 witness: a 429 response without the rate-limit headers aborts. -/
theorem logs_fetch_429_requires_headers_witness :
    respMissing429.status = 429 ∧
    ((get_auth_logs_for_user 0 respMissing429).isSome = true ↔
      (∃ limit, headerGet respMissing429.headers (str "x-ratelimit-limit") = some limit) ∧
      (∃ remaining, headerGet respMissing429.headers (str "x-ratelimit-remaining") = some remaining) ∧
      (∃ reset resetInt, headerGet respMissing429.headers (str "x-ratelimit-reset") = some reset ∧
        parseI64? reset = some resetInt)) ∧
    get_auth_logs_for_user 0 respMissing429 = none :=
  ⟨rfl, logs_fetch_429_requires_headers 0 respMissing429 rfl, by decide⟩

end AuthLogins
